import Mathlib

/-!
# kubectl-pexec: batch execution in all pods of a workload

A shallow embedding of `pkg/cmd/pexec.go` and `cmd/kubectl-pexec.go`.

* Go `error` values are identified by their message; `nil` is `none`.
* A Go call either returns or terminates the process with a run-time panic
  (`Outcome`).
* Go `int` is `Int`.  The only arithmetic is `index + 1`, `2 + offset`,
  `3 + offset + switcher` and `failNum++`, all on values bounded by the length
  of a slice, so 64-bit wrap-around does not arise.
* The cluster API client, the `util` package (`ParseLabels`, `Execute`) and the
  operating-system calls made by `Run` are parameters of the model.
* The goroutines started by `Pexec` are a step function on a shared state, run
  under an explicit schedule.
-/

namespace KubectlPexec

/-- Go error value, identified by its message. -/
abbrev Error := String

/-- Result of a Go call: a normal return, or a run-time panic, which terminates
the process. -/
inductive Outcome (α : Type) where
  | ret (a : α)
  | panic (msg : String)
deriving DecidableEq

/-- The `rest.Config` built from the kubeconfig file. -/
abbrev Config := String

/-- The fields of `PExecOptions`.  `kubeConfig` and `nsFlag` are the two
`configFlags` entries that `Run` reads (`*configFlags.KubeConfig`,
`*configFlags.Namespace`); the IO streams are left out. -/
structure PExecOptions where
  kubeConfig : String
  nsFlag : String
  restConfig : Option Config
  args : List String
  workloadType : String
  offset : Int
  ignoreHostname : Bool
  container : String
  selectLabels : String
deriving DecidableEq

/-- The constructor `NewPExecOptions`: every field has its zero value, `offset` is `0`. -/
def NewPExecOptions : PExecOptions :=
  { kubeConfig := "", nsFlag := "", restConfig := none, args := [],
    workloadType := "", offset := 0, ignoreHostname := false, container := "",
    selectLabels := "" }

/-- Go slice indexing `xs[i]`: `none` stands for the index-out-of-range panic. -/
def goIndex {α : Type} (xs : List α) (i : Int) : Option α :=
  if i < 0 then none else xs[i.toNat]?

/-- Go re-slicing `xs[lo:]`: `none` stands for the slice-bounds panic, raised
when `lo < 0` or `lo > len(xs)`. -/
def goSliceFrom {α : Type} (xs : List α) (lo : Int) : Option (List α) :=
  if lo < 0 ∨ (xs.length : Int) < lo then none else some (xs.drop lo.toNat)

/-- The `for index, _ := range args` loop of `Complete`: the remaining
arguments, the current `index`, and the current value of `peo.offset`. -/
def Complete.loop : List String → Nat → Int → Int
  | [], _, offset => offset
  | a :: rest, index, offset =>
    Complete.loop rest (index + 1) (if a = "pexec" then (index : Int) + 1 else offset)

/-- Method `PExecOptions.Complete`: the updated receiver and the returned error. -/
def Complete (peo : PExecOptions) (args : List String) : PExecOptions × Option Error :=
  ({ peo with args := args, offset := Complete.loop args 0 peo.offset }, none)

/-- The length check that ends `Validate`, after the `switch`. -/
def Validate.checkLen (peo : PExecOptions) (switcher : Int) : PExecOptions × Option Error :=
  if (peo.args.length : Int) < 3 + peo.offset + switcher then
    (peo, some "NoneValidArgs")
  else
    (peo, none)

/-- Method `PExecOptions.Validate`: the updated receiver and the returned error, or the
panic of `args[0+peo.offset]`. -/
def Validate (peo : PExecOptions) : Outcome (PExecOptions × Option Error) :=
  match goIndex peo.args (0 + peo.offset) with
  | none => .panic "index out of range"
  | some workloadType =>
    let switcher : Int := 0
    if workloadType = "deployment" ∨ workloadType = "deploy" then
      .ret (Validate.checkLen { peo with workloadType := "Deployment" } switcher)
    else if workloadType = "statefulset" ∨ workloadType = "ss" then
      .ret (Validate.checkLen { peo with workloadType := "StatefulSet" } switcher)
    else if workloadType = "daemonset" ∨ workloadType = "ds" then
      .ret (Validate.checkLen { peo with workloadType := "DaemonSet" } switcher)
    else if workloadType = "pod" ∨ workloadType = "po" then
      let peo1 := { peo with workloadType := "Pod" }
      let switcher := switcher - 1
      if peo1.selectLabels = "" then
        .ret (peo1, some "Pod type need flag --labels. Please check -h. ")
      else
        .ret (Validate.checkLen peo1 switcher)
    else
      .ret (peo, some "InvalidWorkloadType")

/-- A `map[string]string` label set. -/
abbrev Labels := List (String × String)

/-- A `v1.Pod`; only its name is read. -/
structure Pod where
  name : String
deriving DecidableEq

/-- The cluster API as `GetPods` uses it: the three metadata reads (namespace,
name) yielding the labels of the resource, the rendering of a label set as a
selector string, and the pod list query (namespace, selector). -/
structure Clientset where
  getDeployment : String → String → Except Error Labels
  getStatefulSet : String → String → Except Error Labels
  getDaemonSet : String → String → Except Error Labels
  selectorString : Labels → String
  listPods : String → String → Except Error (List Pod)

/-- The arguments of one `util.Execute` call (the streams are left out). -/
structure ExecCall where
  ns : String
  restConfig : Option Config
  ignoreHostname : Bool
  podName : String
  container : String
  command : String
deriving DecidableEq

/-- Package `util`, whose source is not part of the tree, as a parameter.
`Execute i call` is the error returned to the goroutine of `pods[i]`. -/
structure Util where
  ParseLabels : String → Except Error Labels
  Execute : Nat → ExecCall → Option Error

/-- A request sent to the cluster API. -/
inductive ApiCall where
  | getDeployment (ns name : String)
  | getStatefulSet (ns name : String)
  | getDaemonSet (ns name : String)
  | listPods (ns selector : String)
deriving DecidableEq

/-- What `GetPods` did: the API requests it sent, in order, and its return
values `(pods, err)` or its panic. -/
structure GetPodsResult where
  calls : List ApiCall
  outcome : Outcome (List Pod × Option Error)

/-- The tail of `GetPods`: the list query with the chosen label set. `calls`
are the requests sent so far. -/
def GetPods.list (clientSet : Clientset) (ns : String) (matchLabels : Labels)
    (calls : List ApiCall) : GetPodsResult :=
  let selector := clientSet.selectorString matchLabels
  match clientSet.listPods ns selector with
  | .error err => ⟨calls ++ [.listPods ns selector], .ret ([], some err)⟩
  | .ok items => ⟨calls ++ [.listPods ns selector], .ret (items, none)⟩

/-- Method `PExecOptions.GetPods`. The named result `pods` is `nil` on every error
return. -/
def GetPods (util : Util) (peo : PExecOptions) (clientSet : Clientset) (ns : String) :
    GetPodsResult :=
  match goIndex peo.args (1 + peo.offset) with
  | none => ⟨[], .panic "index out of range"⟩
  | some workloadName =>
    if peo.workloadType = "Deployment" then
      match clientSet.getDeployment ns workloadName with
      | .error err => ⟨[.getDeployment ns workloadName], .ret ([], some err)⟩
      | .ok matchLabels =>
        GetPods.list clientSet ns matchLabels [.getDeployment ns workloadName]
    else if peo.workloadType = "StatefulSet" then
      match clientSet.getStatefulSet ns workloadName with
      | .error err => ⟨[.getStatefulSet ns workloadName], .ret ([], some err)⟩
      | .ok matchLabels =>
        GetPods.list clientSet ns matchLabels [.getStatefulSet ns workloadName]
    else if peo.workloadType = "DaemonSet" then
      match clientSet.getDaemonSet ns workloadName with
      | .error err => ⟨[.getDaemonSet ns workloadName], .ret ([], some err)⟩
      | .ok matchLabels =>
        GetPods.list clientSet ns matchLabels [.getDaemonSet ns workloadName]
    else if peo.workloadType = "Pod" then
      if peo.selectLabels ≠ "" then
        match util.ParseLabels peo.selectLabels with
        | .error err => ⟨[], .ret ([], some err)⟩
        | .ok matchLabels => GetPods.list clientSet ns matchLabels []
      else
        GetPods.list clientSet ns [] []
    else
      ⟨[], .ret ([], some "UnknownWorkloadType")⟩

/-- The `commandOffset` computed by every goroutine of `Pexec`. -/
def commandOffset (peo : PExecOptions) : Int :=
  let commandOffset := 2 + peo.offset
  if peo.workloadType = "Pod" then commandOffset - 1 else commandOffset

/-- Where a goroutine of `Pexec` stands. Reads and writes of the variables the
goroutines share (`err`, `failNum`, `failPodList`) are separate steps; the
locked `append` is one step. -/
inductive Pc where
  /-- Before `if err != nil { panic(err) }`. -/
  | check
  /-- Before `err = util.Execute(...)`. -/
  | exec
  /-- Before the `if err != nil` that follows the call. -/
  | test
  /-- Before the read of `failNum` in `failNum++`. -/
  | load
  /-- Before the write of `failNum` in `failNum++`, holding the value read. -/
  | store (v : Int)
  /-- Before `lock.Lock(); failPodList = append(...); lock.Unlock()`. -/
  | append
  /-- After `wg.Done()`. -/
  | done
deriving DecidableEq

/-- The variables shared by the goroutines of `Pexec` (`err` is the named
result of `Pexec`, captured by every closure), the position of every goroutine,
the `util.Execute` calls made so far, and the panic that ended the process. -/
structure PexecState where
  err : Option Error
  failNum : Int
  failPodList : List String
  pcs : List Pc
  calls : List ExecCall
  panicked : Option String
deriving DecidableEq

/-- The state when the goroutines have been started and none has run. -/
def Pexec.init (pods : List Pod) : PexecState :=
  { err := none, failNum := 0, failPodList := [], pcs := pods.map (fun _ => Pc.check),
    calls := [], panicked := none }

/-- One step of the goroutine of `pods[i]`. Nothing moves after a panic, and a
goroutine that is done does not move. -/
def Pexec.step (util : Util) (peo : PExecOptions) (ns : String) (pods : List Pod)
    (st : PexecState) (i : Nat) : PexecState :=
  match st.panicked with
  | some _ => st
  | none =>
    match pods[i]?, st.pcs[i]? with
    | some pod, some pc =>
      match pc with
      | .check =>
        match st.err with
        | some e => { st with panicked := some e }
        | none => { st with pcs := st.pcs.set i .exec }
      | .exec =>
        match goSliceFrom peo.args (commandOffset peo) with
        | none => { st with panicked := some "slice bounds out of range" }
        | some tokens =>
          let call : ExecCall :=
            { ns := ns, restConfig := peo.restConfig, ignoreHostname := peo.ignoreHostname,
              podName := pod.name, container := peo.container,
              command := " ".intercalate tokens }
          { st with err := util.Execute i call, calls := st.calls ++ [call],
                    pcs := st.pcs.set i .test }
      | .test =>
        match st.err with
        | some _ => { st with pcs := st.pcs.set i .load }
        | none => { st with pcs := st.pcs.set i .done }
      | .load => { st with pcs := st.pcs.set i (.store st.failNum) }
      | .store v => { st with failNum := v + 1, pcs := st.pcs.set i .append }
      | .append =>
        { st with failPodList := st.failPodList ++ [pod.name], pcs := st.pcs.set i .done }
      | .done => st
    | _, _ => st

/-- Runs the goroutine of `pods[i]` from wherever it stands to its end: a
goroutine has at most six steps. -/
def Pexec.finish (util : Util) (peo : PExecOptions) (ns : String) (pods : List Pod)
    (st : PexecState) (i : Nat) : PexecState :=
  (List.replicate 6 i).foldl (Pexec.step util peo ns pods) st

/-- The schedule that runs the goroutines to completion one after the other, in
the given order. -/
def Pexec.sequential : List Nat → List Nat
  | [] => []
  | i :: order => List.replicate 6 i ++ Pexec.sequential order

/-- The values printed in the summary line; the elapsed time is left out. -/
structure Summary where
  success : Int
  fail : Int
  failedPods : List String
deriving DecidableEq

/-- What `Pexec` did: the `util.Execute` calls made, the summary if it was
printed, and the returned error or the panic. -/
structure PexecResult where
  calls : List ExecCall
  summary : Option Summary
  outcome : Outcome (Option Error)
deriving DecidableEq

/-- The goroutines of `Pexec` from start to end: they take their steps in the
order `sched` names them; `wg.Wait()` then lets every goroutine that is not
done run to its end, so that every schedule stands for a complete run. -/
def Pexec.run (util : Util) (peo : PExecOptions) (ns : String) (pods : List Pod)
    (sched : List Nat) : PexecState :=
  let st := sched.foldl (Pexec.step util peo ns pods) (Pexec.init pods)
  (List.range pods.length).foldl (Pexec.finish util peo ns pods) st

/-- Method `PExecOptions.Pexec`: the goroutines run under the schedule `sched`; unless
one of them panicked, the summary is printed and `nil` is returned. -/
def Pexec (util : Util) (peo : PExecOptions) (ns : String) (pods : List Pod)
    (sched : List Nat) : PexecResult :=
  let totalNum : Int := pods.length
  let st := Pexec.run util peo ns pods sched
  match st.panicked with
  | some msg => { calls := st.calls, summary := none, outcome := .panic msg }
  | none =>
    { calls := st.calls,
      summary := some { success := totalNum - st.failNum, fail := st.failNum,
                        failedPods := st.failPodList },
      outcome := .ret none }

/-- The operating-system and client-library calls made by `Run`. -/
structure Env where
  userHomeDir : Except Error String
  pathJoin : List String → String
  stat : String → Option Error
  buildConfigFromFlags : String → String → Except Error Config
  newForConfig : Config → Except Error Clientset

/-- What a run of the command did: the API requests sent, the `util.Execute`
calls made, the summary if it was printed, and the returned error or the
panic. -/
structure RunResult where
  apiCalls : List ApiCall
  execCalls : List ExecCall
  summary : Option Summary
  outcome : Outcome (Option Error)

/-- The part of `Run` that precedes `GetPods`: the kubeconfig path, the REST
configuration, the client set and the default namespace. It yields the options
as updated (`restConfig`, `*namespace`) and the client set, or panics. -/
def Run.setup (env : Env) (peo : PExecOptions) : Outcome (PExecOptions × Clientset) :=
  let kubeconf := peo.kubeConfig
  match env.userHomeDir with
  | .error err => .panic err
  | .ok home =>
    let udc := env.pathJoin [home, ".kube", "config"]
    let kubeconf := if kubeconf = "" ∧ env.stat udc = none then udc else kubeconf
    match env.buildConfigFromFlags "" kubeconf with
    | .error err => .panic err
    | .ok config =>
      let peo := { peo with restConfig := some config }
      match env.newForConfig config with
      | .error err => .panic err
      | .ok clientSet =>
        let peo := if peo.nsFlag = "" then { peo with nsFlag := "default" } else peo
        .ret (peo, clientSet)

/-- Method `PExecOptions.Run`: the set-up, `GetPods`, then `Pexec`. -/
def Run (env : Env) (util : Util) (peo : PExecOptions) (sched : List Nat) : RunResult :=
  match Run.setup env peo with
  | .panic msg => ⟨[], [], none, .panic msg⟩
  | .ret (peo, clientSet) =>
    let ns := peo.nsFlag
    let g := GetPods util peo clientSet ns
    match g.outcome with
    | .panic msg => ⟨g.calls, [], none, .panic msg⟩
    | .ret (_, some err) => ⟨g.calls, [], none, .ret (some err)⟩
    | .ret (pods, none) =>
      let p := Pexec util peo ns pods sched
      match p.outcome with
      | .panic msg => ⟨g.calls, p.calls, p.summary, .panic msg⟩
      | .ret (some err) => ⟨g.calls, p.calls, p.summary, .ret (some err)⟩
      | .ret none => ⟨g.calls, p.calls, p.summary, .ret none⟩

/-- The `RunE` closure of `NewPExecCommand`: `Complete`, `Validate`, `Run`. -/
def RunE (env : Env) (util : Util) (peo : PExecOptions) (args : List String)
    (sched : List Nat) : RunResult :=
  match Complete peo args with
  | (_, some err) => ⟨[], [], none, .ret (some err)⟩
  | (peo, none) =>
    match Validate peo with
    | .panic msg => ⟨[], [], none, .panic msg⟩
    | .ret (_, some err) => ⟨[], [], none, .ret (some err)⟩
    | .ret (peo, none) => Run env util peo sched

/-- The exit status `main` gives the process: `0` when `root.Execute()` returns
no error, `os.Exit(1)` when it returns one, and the Go run-time status `2` when
the process dies of a panic. -/
def main.exitCode (outcome : Outcome (Option Error)) : Nat :=
  match outcome with
  | .ret none => 0
  | .ret (some _) => 1
  | .panic _ => 2

/-! ## A concrete cluster, used to evaluate the model -/

/-- A cluster with one Deployment `nginx`, labelled `app=nginx`, whose three
pods are `nginx-a`, `nginx-b` and `nginx-c`. -/
def demoClientset : Clientset :=
  { getDeployment := fun _ name =>
      if name = "nginx" then .ok [("app", "nginx")] else .error "deployments.apps not found"
    getStatefulSet := fun _ _ => .error "statefulsets.apps not found"
    getDaemonSet := fun _ _ => .error "daemonsets.apps not found"
    selectorString := fun labels => ",".intercalate (labels.map (fun kv => kv.1 ++ "=" ++ kv.2))
    listPods := fun _ selector =>
      if selector = "app=nginx" then .ok [⟨"nginx-a"⟩, ⟨"nginx-b"⟩, ⟨"nginx-c"⟩] else .ok [] }

/-- A machine on which the set-up of `Run` succeeds and yields `demoClientset`. -/
def demoEnv : Env :=
  { userHomeDir := .ok "/root"
    pathJoin := fun parts => "/".intercalate parts
    stat := fun _ => none
    buildConfigFromFlags := fun _ kubeconf => .ok kubeconf
    newForConfig := fun _ => .ok demoClientset }

/-- A `util` package whose `Execute` fails for the pods at the indices in
`failing` and succeeds for every other pod. -/
def demoUtil (failing : List Nat) : Util :=
  { ParseLabels := fun _ => .ok []
    Execute := fun i _ => if i ∈ failing then some "command terminated with exit code 1" else none }

/-- The options after `Complete` and `Validate` on `deployment nginx ls`. -/
def demoOptions : PExecOptions :=
  { NewPExecOptions with args := ["deployment", "nginx", "ls"], workloadType := "Deployment" }

/-! ## `Complete` -/

theorem Complete.loop_of_not_mem (l : List String) (k : Nat) (off : Int)
    (h : "pexec" ∉ l) : Complete.loop l k off = off := by
  induction l generalizing k off with
  | nil => rfl
  | cons a rest ih =>
    have ha : a ≠ "pexec" := fun e => h (by simp [e])
    have hr : "pexec" ∉ rest := fun m => h (List.mem_cons_of_mem _ m)
    simp [Complete.loop, ha, ih _ _ hr]

theorem Complete.loop_of_last (l : List String) (k : Nat) (off : Int) (i : Nat)
    (hi : l[i]? = some "pexec") (hlast : ∀ j, i < j → l[j]? ≠ some "pexec") :
    Complete.loop l k off = (k : Int) + i + 1 := by
  induction l generalizing k off i with
  | nil => simp at hi
  | cons a rest ih =>
    cases i with
    | zero =>
      have ha : a = "pexec" := by simpa using hi
      have hr : "pexec" ∉ rest := by
        intro m
        obtain ⟨j, hj⟩ := List.getElem?_of_mem m
        exact hlast (j + 1) (Nat.succ_pos j) (by simpa using hj)
      simp [Complete.loop, ha, Complete.loop_of_not_mem _ _ _ hr]
    | succ i =>
      have h1 : rest[i]? = some "pexec" := by simpa using hi
      have h2 : ∀ j, i < j → rest[j]? ≠ some "pexec" := by
        intro j hj
        have := hlast (j + 1) (Nat.succ_lt_succ hj)
        simpa using this
      rw [Complete.loop, ih _ _ i h1 h2]
      push_cast
      ring

theorem Complete.loop_bounds (l : List String) (k : Nat) (off : Int)
    (h0 : 0 ≤ off) (hk : off ≤ k) :
    0 ≤ Complete.loop l k off ∧ Complete.loop l k off ≤ (k : Int) + l.length := by
  induction l generalizing k off with
  | nil => simp [Complete.loop, h0, hk]
  | cons a rest ih =>
    have h := ih (k + 1) (if a = "pexec" then (k : Int) + 1 else off)
      (by split <;> omega) (by split <;> push_cast <;> omega)
    rw [Complete.loop]
    refine ⟨h.1, ?_⟩
    have := h.2
    simp only [List.length_cons]
    push_cast at this ⊢
    omega

theorem Complete.loop_eq_end (l : List String) (k : Nat) (off : Int) (hk : off ≤ k) :
    Complete.loop l k off = (k : Int) + l.length ↔
      (l = [] ∧ off = k) ∨ l.getLast? = some "pexec" := by
  induction l generalizing k off with
  | nil => simp [Complete.loop]
  | cons a rest ih =>
    have h := ih (k + 1) (if a = "pexec" then (k : Int) + 1 else off)
      (by split <;> push_cast <;> omega)
    rw [Complete.loop]
    have e : ((k : Int) + (a :: rest).length) = ((k + 1 : Nat) : Int) + rest.length := by
      simp only [List.length_cons]; push_cast; ring
    rw [e, h]
    cases rest with
    | nil =>
      by_cases ha : a = "pexec"
      · simp [ha]
      · simp [ha]
        omega
    | cons b rest2 => simp [List.getLast?_cons_cons]

/-- C10, counterexample: on the empty argument list `Complete` leaves the
offset of fresh options at `0`, which is the length of the list, although the
list has no last element equal to "pexec". -/
theorem Complete_offset_end_on_empty_args :
    (Complete NewPExecOptions []).1.offset = (([] : List String).length : Int) ∧
      ¬ (([] : List String).getLast? = some "pexec") := by
  decide

/-- C10, as amended: `Complete` stores the argument list unchanged, touches no
other field than `args` and `offset`, and returns no error. The offset becomes
one past the index of the last element equal to "pexec", and stays as it was
when no element equals "pexec". Starting from offset `0` (as `NewPExecOptions`
sets it), `0 ≤ offset ≤ len(args)`, and `offset = len(args)` exactly when the
list is empty or its last element is "pexec". -/
theorem Complete_offset (peo : PExecOptions) (args : List String) :
    (Complete peo args).2 = none ∧
    (Complete peo args).1 = { peo with args := args, offset := (Complete peo args).1.offset } ∧
    (∀ i : Nat, args[i]? = some "pexec" → (∀ j, i < j → args[j]? ≠ some "pexec") →
      (Complete peo args).1.offset = (i : Int) + 1) ∧
    ("pexec" ∉ args → (Complete peo args).1.offset = peo.offset) ∧
    (peo.offset = 0 →
      0 ≤ (Complete peo args).1.offset ∧
      (Complete peo args).1.offset ≤ (args.length : Int) ∧
      ((Complete peo args).1.offset = (args.length : Int) ↔
        args = [] ∨ args.getLast? = some "pexec")) := by
  refine ⟨rfl, rfl, ?_, ?_, ?_⟩
  · intro i hi hlast
    have := Complete.loop_of_last args 0 peo.offset i hi hlast
    simpa [Complete] using this
  · intro h
    exact Complete.loop_of_not_mem args 0 peo.offset h
  · intro h0
    have hb := Complete.loop_bounds args 0 peo.offset (by omega) (by simp [h0])
    have he := Complete.loop_eq_end args 0 peo.offset (by simp [h0])
    simp only [Complete]
    refine ⟨hb.1, by simpa using hb.2, ?_⟩
    simpa [h0] using he

/-- C10, witness: fresh options and the arguments `x pexec`. -/
theorem Complete_offset_witness :
    NewPExecOptions.offset = 0 ∧
    0 ≤ (Complete NewPExecOptions ["x", "pexec"]).1.offset ∧
    (Complete NewPExecOptions ["x", "pexec"]).1.offset ≤ ((["x", "pexec"] : List String).length : Int) ∧
    ((Complete NewPExecOptions ["x", "pexec"]).1.offset = ((["x", "pexec"] : List String).length : Int) ↔
      (["x", "pexec"] : List String) = [] ∨
        (["x", "pexec"] : List String).getLast? = some "pexec") :=
  ⟨rfl, (Complete_offset NewPExecOptions ["x", "pexec"]).2.2.2.2 rfl⟩

/-! ## `Validate` -/

/-- C5: with no positional argument, and with "pexec" as the last argument,
`Validate` reads `args[0+offset]` outside the slice and panics; no error value
reaches the caller. -/
theorem Validate_panics_on_short_args :
    Validate (Complete NewPExecOptions []).1 = .panic "index out of range" ∧
    Validate (Complete NewPExecOptions ["pexec"]).1 = .panic "index out of range" ∧
    Validate (Complete NewPExecOptions ["deployment", "nginx", "ls", "pexec"]).1 =
      .panic "index out of range" := by
  decide

theorem goIndex_some_iff {α : Type} (xs : List α) (i : Int) (a : α) :
    goIndex xs i = some a ↔ 0 ≤ i ∧ xs[i.toNat]? = some a := by
  unfold goIndex
  split <;> rename_i h
  · simp; omega
  · simp; intro _; omega

theorem goIndex_lt_length {α : Type} (xs : List α) (i : Int) (a : α)
    (h : goIndex xs i = some a) : 0 ≤ i ∧ i < (xs.length : Int) := by
  obtain ⟨h0, h1⟩ := (goIndex_some_iff xs i a).1 h
  obtain ⟨hlt, _⟩ := List.getElem?_eq_some.1 h1
  omega

theorem goIndex_of_lt {α : Type} (xs : List α) (i : Int) (h0 : 0 ≤ i)
    (h1 : i < (xs.length : Int)) : ∃ a, goIndex xs i = some a := by
  have hlt : i.toNat < xs.length := by omega
  refine ⟨xs[i.toNat], ?_⟩
  rw [goIndex_some_iff]
  exact ⟨h0, List.getElem?_eq_getElem hlt⟩

/-- What a successful `Validate` establishes: the arguments and the offset are
untouched, the kind token exists, and the list is long enough for the kind. -/
theorem Validate_ret_none (peo1 peo : PExecOptions) (h : Validate peo1 = .ret (peo, none)) :
    peo.args = peo1.args ∧ peo.offset = peo1.offset ∧ 0 ≤ peo.offset ∧
    ((peo.workloadType = "Pod" ∧ 2 + peo.offset ≤ (peo.args.length : Int)) ∨
     (peo.workloadType ≠ "Pod" ∧ 3 + peo.offset ≤ (peo.args.length : Int))) := by
  unfold Validate at h
  split at h
  · exact absurd h (by simp)
  · rename_i tok htok
    have h0 := (goIndex_lt_length _ _ _ htok).1
    simp only [Validate.checkLen] at h
    split_ifs at h <;> simp only [Outcome.ret.injEq, Prod.mk.injEq, reduceCtorEq, and_false] at h
    all_goals
      obtain ⟨rfl, -⟩ := h
      simp at *
      omega

/-- C9: whenever `Complete` and then `Validate` succeed, the command offset
used by every goroutine of `Pexec` lies inside `args`, the slice
`args[commandOffset:]` is taken without a panic and holds at least one token,
and the index `1 + offset` read by `GetPods` lies inside `args`. -/
theorem Validate_command_in_bounds (peo0 : PExecOptions) (args : List String)
    (peo1 peo : PExecOptions) (hc : Complete peo0 args = (peo1, none))
    (hv : Validate peo1 = .ret (peo, none)) :
    peo.args = args ∧
    0 ≤ commandOffset peo ∧ commandOffset peo < (peo.args.length : Int) ∧
    (∃ tokens, goSliceFrom peo.args (commandOffset peo) = some tokens ∧ tokens ≠ []) ∧
    (∃ workloadName, goIndex peo.args (1 + peo.offset) = some workloadName) := by
  obtain ⟨ha, -, h0, hk⟩ := Validate_ret_none peo1 peo hv
  have hargs : peo1.args = args := by
    have := congrArg Prod.fst hc
    simp only [Complete] at this
    rw [← this]
  have hco : 0 ≤ commandOffset peo ∧ commandOffset peo < (peo.args.length : Int) := by
    unfold commandOffset
    rcases hk with ⟨hp, hl⟩ | ⟨hp, hl⟩
    · simp only [hp, if_true]; omega
    · simp only [hp, if_false]; omega
  refine ⟨ha.trans hargs, hco.1, hco.2, ?_, ?_⟩
  · refine ⟨peo.args.drop (commandOffset peo).toNat, ?_, ?_⟩
    · unfold goSliceFrom
      rw [if_neg (by omega)]
    · intro hnil
      have := congrArg List.length hnil
      simp only [List.length_drop, List.length_nil] at this
      omega
  · apply goIndex_of_lt
    · omega
    · rcases hk with ⟨_, hl⟩ | ⟨_, hl⟩ <;> omega

/-- C9, witness: the arguments `deployment nginx ls`, on which `Complete` and
`Validate` succeed and leave `demoOptions`. -/
theorem Validate_command_in_bounds_witness :
    Complete NewPExecOptions ["deployment", "nginx", "ls"] =
      ({ NewPExecOptions with args := ["deployment", "nginx", "ls"] }, none) ∧
    Validate { NewPExecOptions with args := ["deployment", "nginx", "ls"] } =
      .ret (demoOptions, none) ∧
    demoOptions.args = ["deployment", "nginx", "ls"] ∧
    0 ≤ commandOffset demoOptions ∧
    commandOffset demoOptions < (demoOptions.args.length : Int) ∧
    (∃ tokens, goSliceFrom demoOptions.args (commandOffset demoOptions) = some tokens ∧
      tokens ≠ []) ∧
    (∃ workloadName, goIndex demoOptions.args (1 + demoOptions.offset) = some workloadName) :=
  ⟨by decide, by decide,
    Validate_command_in_bounds NewPExecOptions ["deployment", "nginx", "ls"]
      { NewPExecOptions with args := ["deployment", "nginx", "ls"] } demoOptions
      (by decide) (by decide)⟩

/-- C7, counterexample: the arguments `pod ls -l` are long enough and their
kind token is "pod", yet with an empty labels flag `Validate` returns an
error. -/
theorem Validate_rejects_pod_without_labels :
    goIndex (Complete NewPExecOptions ["pod", "ls", "-l"]).1.args
      (0 + (Complete NewPExecOptions ["pod", "ls", "-l"]).1.offset) = some "pod" ∧
    Validate (Complete NewPExecOptions ["pod", "ls", "-l"]).1 =
      .ret ({ NewPExecOptions with args := ["pod", "ls", "-l"], workloadType := "Pod" },
        some "Pod type need flag --labels. Please check -h. ") := by
  decide

/-- C7, as amended: on an argument list with at least three elements from the
offset on, `Validate` succeeds exactly when the kind token is one of
deployment, deploy, statefulset, ss, daemonset, ds, or is pod or po and the
labels flag is non-empty. It sets `workloadType` to Deployment, StatefulSet,
DaemonSet or Pod for the respective pair of tokens (for pod and po also when it
returns the labels error). Every other token makes it return the error
InvalidWorkloadType with the options unchanged. `GetPods` returns the error
UnknownWorkloadType, sending no request, for a `workloadType` outside the four
kinds. -/
theorem Validate_kind (peo : PExecOptions) (tok : String)
    (htok : goIndex peo.args (0 + peo.offset) = some tok)
    (hlen : 3 + peo.offset ≤ (peo.args.length : Int)) :
    ((∃ peo1, Validate peo = .ret (peo1, none)) ↔
      (tok = "deployment" ∨ tok = "deploy" ∨ tok = "statefulset" ∨ tok = "ss" ∨
       tok = "daemonset" ∨ tok = "ds" ∨ ((tok = "pod" ∨ tok = "po") ∧ peo.selectLabels ≠ ""))) ∧
    (tok = "deployment" ∨ tok = "deploy" →
      Validate peo = .ret ({ peo with workloadType := "Deployment" }, none)) ∧
    (tok = "statefulset" ∨ tok = "ss" →
      Validate peo = .ret ({ peo with workloadType := "StatefulSet" }, none)) ∧
    (tok = "daemonset" ∨ tok = "ds" →
      Validate peo = .ret ({ peo with workloadType := "DaemonSet" }, none)) ∧
    (tok = "pod" ∨ tok = "po" →
      Validate peo = .ret ({ peo with workloadType := "Pod" },
        if peo.selectLabels = "" then some "Pod type need flag --labels. Please check -h. "
        else none)) ∧
    (¬ (tok = "deployment" ∨ tok = "deploy" ∨ tok = "statefulset" ∨ tok = "ss" ∨
        tok = "daemonset" ∨ tok = "ds" ∨ tok = "pod" ∨ tok = "po") →
      Validate peo = .ret (peo, some "InvalidWorkloadType")) ∧
    (∀ (util : Util) (clientSet : Clientset) (ns : String),
      ¬ (peo.workloadType = "Deployment" ∨ peo.workloadType = "StatefulSet" ∨
         peo.workloadType = "DaemonSet" ∨ peo.workloadType = "Pod") →
      (GetPods util peo clientSet ns).outcome = .ret ([], some "UnknownWorkloadType") ∧
      (GetPods util peo clientSet ns).calls = []) := by
  have h0 := (goIndex_lt_length _ _ _ htok).1
  have hl : ¬ ((peo.args.length : Int) < 3 + peo.offset) := by omega
  have hl1 : ¬ ((peo.args.length : Int) + 1 < 3 + peo.offset) := by omega
  rw [zero_add] at htok
  have hD : tok = "deployment" ∨ tok = "deploy" →
      Validate peo = .ret ({ peo with workloadType := "Deployment" }, none) := by
    rintro (rfl | rfl) <;> simp [Validate, htok, Validate.checkLen, hl]
  have hS : tok = "statefulset" ∨ tok = "ss" →
      Validate peo = .ret ({ peo with workloadType := "StatefulSet" }, none) := by
    rintro (rfl | rfl) <;> simp [Validate, htok, Validate.checkLen, hl]
  have hDs : tok = "daemonset" ∨ tok = "ds" →
      Validate peo = .ret ({ peo with workloadType := "DaemonSet" }, none) := by
    rintro (rfl | rfl) <;> simp [Validate, htok, Validate.checkLen, hl]
  have hP : tok = "pod" ∨ tok = "po" →
      Validate peo = .ret ({ peo with workloadType := "Pod" },
        if peo.selectLabels = "" then some "Pod type need flag --labels. Please check -h. "
        else none) := by
    rintro (rfl | rfl) <;> by_cases hs : peo.selectLabels = "" <;>
      simp [Validate, htok, Validate.checkLen, hl1, hs]
  have hO : ¬ (tok = "deployment" ∨ tok = "deploy" ∨ tok = "statefulset" ∨ tok = "ss" ∨
        tok = "daemonset" ∨ tok = "ds" ∨ tok = "pod" ∨ tok = "po") →
      Validate peo = .ret (peo, some "InvalidWorkloadType") := by
    intro h
    simp only [not_or] at h
    obtain ⟨h1, h2, h3, h4, h5, h6, h7, h8⟩ := h
    simp [Validate, htok, h1, h2, h3, h4, h5, h6, h7, h8]
  refine ⟨?_, hD, hS, hDs, hP, hO, ?_⟩
  · constructor
    · rintro ⟨peo1, h⟩
      by_contra hn
      simp only [not_or, not_and_or] at hn
      obtain ⟨h1, h2, h3, h4, h5, h6, h7⟩ := hn
      by_cases hp : tok = "pod" ∨ tok = "po"
      · have hs : peo.selectLabels = "" := by
          rcases h7 with h7 | h7
          · exact absurd hp (not_or.2 h7)
          · exact not_not.1 h7
        rw [hP hp, if_pos hs] at h
        simp at h
      · have := hO (by simp only [not_or] at hp ⊢; exact ⟨h1, h2, h3, h4, h5, h6, hp.1, hp.2⟩)
        rw [this] at h
        simp at h
    · rintro (h | h | h | h | h | h | ⟨h, hs⟩)
      · exact ⟨_, hD (Or.inl h)⟩
      · exact ⟨_, hD (Or.inr h)⟩
      · exact ⟨_, hS (Or.inl h)⟩
      · exact ⟨_, hS (Or.inr h)⟩
      · exact ⟨_, hDs (Or.inl h)⟩
      · exact ⟨_, hDs (Or.inr h)⟩
      · refine ⟨{ peo with workloadType := "Pod" }, ?_⟩
        rw [hP h, if_neg hs]
  · intro util clientSet ns hw
    simp only [not_or] at hw
    obtain ⟨w1, w2, w3, w4⟩ := hw
    rw [zero_add] at h0
    obtain ⟨name, hname⟩ := goIndex_of_lt peo.args (1 + peo.offset) (by omega) (by omega)
    simp [GetPods, hname, w1, w2, w3, w4]

/-- C7, witness: the arguments `ss web ls`. -/
theorem Validate_kind_witness :
    Validate { NewPExecOptions with args := ["ss", "web", "ls"] } =
      .ret ({ NewPExecOptions with args := ["ss", "web", "ls"], workloadType := "StatefulSet" },
        none) :=
  (Validate_kind { NewPExecOptions with args := ["ss", "web", "ls"] } "ss"
    (by decide) (by decide)).2.2.1 (Or.inr rfl)

/-- The `case "pod", "po"` branch of `Validate`. -/
theorem Validate_pod (peo : PExecOptions) (tok : String)
    (htok : goIndex peo.args peo.offset = some tok) (hpod : tok = "pod" ∨ tok = "po") :
    Validate peo =
      if peo.selectLabels = "" then
        .ret ({ peo with workloadType := "Pod" },
          some "Pod type need flag --labels. Please check -h. ")
      else
        .ret (Validate.checkLen { peo with workloadType := "Pod" } (0 - 1)) := by
  rcases hpod with rfl | rfl <;> simp [Validate, htok]

/-- C8: when the kind token (the argument at the offset `Complete` computed) is
pod or po and the labels flag is empty, `Validate` returns an error whatever
the other arguments are, and `RunE` returns that error having sent no API
request and started no execution. When the labels flag is non-empty and at
least one token follows the kind token, `Validate` succeeds. -/
theorem Validate_pod_needs_labels (peo0 : PExecOptions) (args : List String) (tok : String)
    (htok : goIndex args (0 + (Complete peo0 args).1.offset) = some tok)
    (hpod : tok = "pod" ∨ tok = "po") :
    (peo0.selectLabels = "" →
      Validate (Complete peo0 args).1 =
        .ret ({ (Complete peo0 args).1 with workloadType := "Pod" },
          some "Pod type need flag --labels. Please check -h. ") ∧
      ∀ (env : Env) (util : Util) (sched : List Nat),
        (RunE env util peo0 args sched).outcome =
          .ret (some "Pod type need flag --labels. Please check -h. ") ∧
        (RunE env util peo0 args sched).apiCalls = [] ∧
        (RunE env util peo0 args sched).execCalls = [] ∧
        (RunE env util peo0 args sched).summary = none) ∧
    (peo0.selectLabels ≠ "" →
      2 + (Complete peo0 args).1.offset ≤ (args.length : Int) →
      Validate (Complete peo0 args).1 =
        .ret ({ (Complete peo0 args).1 with workloadType := "Pod" }, none)) := by
  have htok1 : goIndex (Complete peo0 args).1.args (Complete peo0 args).1.offset = some tok := by
    rw [zero_add] at htok
    exact htok
  have hV := Validate_pod (Complete peo0 args).1 tok htok1 hpod
  have hsel : (Complete peo0 args).1.selectLabels = peo0.selectLabels := rfl
  have hC : Complete peo0 args = ((Complete peo0 args).1, none) := rfl
  rw [hsel] at hV
  constructor
  · intro hs
    rw [if_pos hs] at hV
    refine ⟨hV, ?_⟩
    intro env util sched
    unfold RunE
    rw [hC]
    simp [hV]
  · intro hs hlen
    rw [if_neg hs] at hV
    have hl : (Complete peo0 args).1.args.length = args.length := rfl
    have hlt : ¬ ((({ (Complete peo0 args).1 with workloadType := "Pod" } :
        PExecOptions).args.length : Int) <
        3 + ({ (Complete peo0 args).1 with workloadType := "Pod" } : PExecOptions).offset +
          (0 - 1)) := by
      simp only [hl]
      omega
    rw [hV, Validate.checkLen, if_neg hlt]
    rfl

/-- C8, witness: the arguments `po ls` with an empty labels flag. -/
theorem Validate_pod_needs_labels_witness :
    Validate (Complete NewPExecOptions ["po", "ls"]).1 =
      .ret ({ (Complete NewPExecOptions ["po", "ls"]).1 with workloadType := "Pod" },
        some "Pod type need flag --labels. Please check -h. ") :=
  ((Validate_pod_needs_labels NewPExecOptions ["po", "ls"] "po" (by decide) (Or.inr rfl)).1
    rfl).1

/-! ## `GetPods` and `Run` -/

/-- When `GetPods` returns an error, `Run` returns the same error, having
started no execution and printed no summary, under every schedule. -/
theorem Run_of_GetPods_error (env : Env) (util : Util) (peo peo1 : PExecOptions)
    (clientSet : Clientset) (pods : List Pod) (err : Error) (sched : List Nat)
    (hsetup : Run.setup env peo = .ret (peo1, clientSet))
    (hget : (GetPods util peo1 clientSet peo1.nsFlag).outcome = .ret (pods, some err)) :
    (Run env util peo sched).outcome = .ret (some err) ∧
    (Run env util peo sched).execCalls = [] ∧
    (Run env util peo sched).summary = none ∧
    (Run env util peo sched).apiCalls = (GetPods util peo1 clientSet peo1.nsFlag).calls := by
  unfold Run
  simp [hsetup, hget]

/-- No error is ever returned by `Pexec`: it panics or returns `nil`. -/
theorem Pexec_outcome (util : Util) (peo : PExecOptions) (ns : String) (pods : List Pod)
    (sched : List Nat) :
    (Pexec util peo ns pods sched).outcome = .ret none ∨
    ∃ msg, (Pexec util peo ns pods sched).outcome = .panic msg := by
  unfold Pexec
  simp only
  split
  · exact Or.inr ⟨_, rfl⟩
  · exact Or.inl rfl

/-- An error returned by `Run` is the error returned by `GetPods`. -/
theorem Run_error_from_GetPods (env : Env) (util : Util) (peo : PExecOptions)
    (sched : List Nat) (err : Error)
    (h : (Run env util peo sched).outcome = .ret (some err)) :
    ∃ peo1 clientSet pods, Run.setup env peo = .ret (peo1, clientSet) ∧
      (GetPods util peo1 clientSet peo1.nsFlag).outcome = .ret (pods, some err) := by
  unfold Run at h
  split at h
  · simp at h
  · rename_i peo1 clientSet hsetup
    simp only at h
    split at h
    · simp at h
    · rename_i pods e hget
      simp only [Outcome.ret.injEq, Option.some.injEq] at h
      subst h
      exact ⟨peo1, clientSet, pods, hsetup, hget⟩
    · rename_i pods hget
      rcases Pexec_outcome util peo1 peo1.nsFlag pods sched with hp | ⟨msg, hp⟩
      · rw [hp] at h
        simp at h
      · rw [hp] at h
        simp at h

/-- C3: once the set-up of `Run` has produced a client set and the workload
name is read from `args`, a failing metadata read of the named Deployment,
StatefulSet or DaemonSet, or a failing pod list query (for any of the four
kinds), makes `GetPods` return that error with no pods; `Run` returns the same
error, no execution is started and no summary is printed, under every
schedule. -/
theorem GetPods_fail_fast (env : Env) (util : Util) (peo peo1 : PExecOptions)
    (clientSet : Clientset) (workloadName : String) (err : Error) (sched : List Nat)
    (hsetup : Run.setup env peo = .ret (peo1, clientSet))
    (hname : goIndex peo1.args (1 + peo1.offset) = some workloadName)
    (hfail :
      (peo1.workloadType = "Deployment" ∧
        (clientSet.getDeployment peo1.nsFlag workloadName = .error err ∨
         ∃ labels, clientSet.getDeployment peo1.nsFlag workloadName = .ok labels ∧
           clientSet.listPods peo1.nsFlag (clientSet.selectorString labels) = .error err)) ∨
      (peo1.workloadType = "StatefulSet" ∧
        (clientSet.getStatefulSet peo1.nsFlag workloadName = .error err ∨
         ∃ labels, clientSet.getStatefulSet peo1.nsFlag workloadName = .ok labels ∧
           clientSet.listPods peo1.nsFlag (clientSet.selectorString labels) = .error err)) ∨
      (peo1.workloadType = "DaemonSet" ∧
        (clientSet.getDaemonSet peo1.nsFlag workloadName = .error err ∨
         ∃ labels, clientSet.getDaemonSet peo1.nsFlag workloadName = .ok labels ∧
           clientSet.listPods peo1.nsFlag (clientSet.selectorString labels) = .error err)) ∨
      (peo1.workloadType = "Pod" ∧
        ∃ labels, (if peo1.selectLabels ≠ "" then util.ParseLabels peo1.selectLabels = .ok labels
            else labels = []) ∧
          clientSet.listPods peo1.nsFlag (clientSet.selectorString labels) = .error err)) :
    (GetPods util peo1 clientSet peo1.nsFlag).outcome = .ret ([], some err) ∧
    (Run env util peo sched).outcome = .ret (some err) ∧
    (Run env util peo sched).execCalls = [] ∧
    (Run env util peo sched).summary = none := by
  have hget : (GetPods util peo1 clientSet peo1.nsFlag).outcome = .ret ([], some err) := by
    unfold GetPods
    rw [hname]
    rcases hfail with ⟨hw, h⟩ | ⟨hw, h⟩ | ⟨hw, h⟩ | ⟨hw, labels, hl, h⟩
    · rcases h with h | ⟨labels, h1, h2⟩
      · simp [hw, h]
      · simp [hw, h1, GetPods.list, h2]
    · rcases h with h | ⟨labels, h1, h2⟩
      · simp [hw, h]
      · simp [hw, h1, GetPods.list, h2]
    · rcases h with h | ⟨labels, h1, h2⟩
      · simp [hw, h]
      · simp [hw, h1, GetPods.list, h2]
    · by_cases hs : peo1.selectLabels = ""
      · rw [if_neg (by simpa using hs)] at hl
        subst hl
        simp [hw, hs, GetPods.list, h]
      · rw [if_pos hs] at hl
        simp [hw, hs, hl, GetPods.list, h]
  obtain ⟨h1, h2, h3, -⟩ := Run_of_GetPods_error env util peo peo1 clientSet [] err sched hsetup hget
  exact ⟨hget, h1, h2, h3⟩

/-- C3, witness: on the demo cluster the Deployment `missing` does not exist;
`GetPods` and `Run` return the error of the metadata read and no execution is
started. -/
theorem GetPods_fail_fast_witness :
    (Run demoEnv (demoUtil [])
      { NewPExecOptions with args := ["deployment", "missing", "ls"], workloadType := "Deployment" }
      []).outcome = .ret (some "deployments.apps not found") ∧
    (Run demoEnv (demoUtil [])
      { NewPExecOptions with args := ["deployment", "missing", "ls"], workloadType := "Deployment" }
      []).execCalls = [] :=
  have h := GetPods_fail_fast demoEnv (demoUtil [])
    { NewPExecOptions with args := ["deployment", "missing", "ls"], workloadType := "Deployment" }
    { NewPExecOptions with args := ["deployment", "missing", "ls"], workloadType := "Deployment",
                           restConfig := some "/root/.kube/config", nsFlag := "default" }
    demoClientset "missing" "deployments.apps not found" []
    rfl (by decide) (Or.inl ⟨rfl, Or.inl rfl⟩)
  ⟨h.2.1, h.2.2.1⟩

/-! ## `Pexec` -/

theorem foldl_invariant {σ ι : Type} (f : σ → ι → σ) (Inv : σ → Prop)
    (hstep : ∀ st i, Inv st → Inv (f st i)) (l : List ι) (st : σ) (h : Inv st) :
    Inv (l.foldl f st) := by
  induction l generalizing st with
  | nil => exact h
  | cons i rest ih => exact ih _ (hstep st i h)

/-- A property of the shared state that holds at the start and is kept by every
step of every goroutine holds when `Pexec` reaches `wg.Wait()`'s end, under
every schedule. -/
theorem Pexec.run_invariant (util : Util) (peo : PExecOptions) (ns : String) (pods : List Pod)
    (Inv : PexecState → Prop) (hinit : Inv (Pexec.init pods))
    (hstep : ∀ st i, Inv st → Inv (Pexec.step util peo ns pods st i)) (sched : List Nat) :
    Inv (Pexec.run util peo ns pods sched) := by
  unfold Pexec.run
  apply foldl_invariant _ Inv
  · intro st i h
    exact foldl_invariant _ Inv hstep _ st h
  · exact foldl_invariant _ Inv hstep _ _ hinit

theorem Pexec_calls (util : Util) (peo : PExecOptions) (ns : String) (pods : List Pod)
    (sched : List Nat) :
    (Pexec util peo ns pods sched).calls = (Pexec.run util peo ns pods sched).calls := by
  unfold Pexec
  simp only
  split <;> rfl

/-- Every `util.Execute` call made by `Pexec` is for one of the pods, in the
given namespace, with the command `strings.Join(args[commandOffset:], " ")`. -/
theorem Pexec_calls_command (util : Util) (peo : PExecOptions) (ns : String) (pods : List Pod)
    (sched : List Nat) (tokens : List String)
    (hs : goSliceFrom peo.args (commandOffset peo) = some tokens) :
    ∀ call ∈ (Pexec util peo ns pods sched).calls,
      call.command = " ".intercalate tokens ∧ call.ns = ns ∧
      call.container = peo.container ∧ ∃ pod ∈ pods, call.podName = pod.name := by
  rw [Pexec_calls]
  apply Pexec.run_invariant util peo ns pods
    (fun st => ∀ call ∈ st.calls, call.command = " ".intercalate tokens ∧ call.ns = ns ∧
      call.container = peo.container ∧ ∃ pod ∈ pods, call.podName = pod.name)
  · intro call hc
    simp [Pexec.init] at hc
  · intro st i h
    unfold Pexec.step
    split
    · exact h
    · split
      · rename_i pod pc hpod hpc
        split
        · split <;> exact h
        · rw [hs]
          intro call hc
          simp only [List.mem_append, List.mem_singleton] at hc
          rcases hc with hc | rfl
          · exact h call hc
          · exact ⟨rfl, rfl, rfl, pod, List.getElem?_mem hpod, rfl⟩
        · split <;> exact h
        · exact h
        · exact h
        · exact h
        · exact h
      · exact h

/-- When every execution succeeds and the command slice is in bounds, `Pexec`
returns `nil` under every schedule, and the summary reports every pod as a
success. -/
theorem Pexec_all_succeed (util : Util) (peo : PExecOptions) (ns : String) (pods : List Pod)
    (sched : List Nat) (tokens : List String)
    (hs : goSliceFrom peo.args (commandOffset peo) = some tokens)
    (hok : ∀ i call, util.Execute i call = none) :
    (Pexec util peo ns pods sched).outcome = .ret none ∧
    (Pexec util peo ns pods sched).summary =
      some { success := pods.length, fail := 0, failedPods := [] } := by
  have hinv := Pexec.run_invariant util peo ns pods
    (fun st => st.err = none ∧ st.panicked = none ∧ st.failNum = 0 ∧ st.failPodList = [] ∧
      ∀ pc ∈ st.pcs, pc = .check ∨ pc = .exec ∨ pc = .test ∨ pc = .done)
    (by simp [Pexec.init])
    (by
      rintro st i ⟨he, hp, hn, hl, hpc⟩
      have hset : ∀ q : Pc, (q = .check ∨ q = .exec ∨ q = .test ∨ q = .done) →
          ∀ pc ∈ st.pcs.set i q, pc = .check ∨ pc = .exec ∨ pc = .test ∨ pc = .done := by
        intro q hq pc hmem
        rcases List.mem_or_eq_of_mem_set hmem with h | h
        · exact hpc pc h
        · rw [h]; exact hq
      unfold Pexec.step
      rw [hp]
      simp only
      split
      · rename_i pod pc hpod hpcs
        have hcur := hpc pc (List.getElem?_mem hpcs)
        split
        · simp only [he]
          refine ⟨?_, ?_, ?_, ?_, hset _ (by simp)⟩ <;> first | assumption | trivial
        · simp only [hs]
          refine ⟨?_, ?_, ?_, ?_, hset _ (by simp)⟩ <;> first | assumption | trivial | exact hok _ _
        · simp only [he]
          refine ⟨?_, ?_, ?_, ?_, hset _ (by simp)⟩ <;> first | assumption | trivial
        · simp at hcur
        · simp at hcur
        · simp at hcur
        · exact ⟨he, hp, hn, hl, hpc⟩
      · exact ⟨he, hp, hn, hl, hpc⟩)
    sched
  obtain ⟨-, hp, hn, hl, -⟩ := hinv
  unfold Pexec
  simp [hp, hn, hl]

/-- With no pod, `Pexec` starts no execution and reports Success 0, Fail 0 and
an empty list of failed pods. -/
theorem Pexec_no_pods (util : Util) (peo : PExecOptions) (ns : String) (sched : List Nat) :
    Pexec util peo ns [] sched =
      { calls := [], summary := some { success := 0, fail := 0, failedPods := [] },
        outcome := .ret none } := by
  have hinv := Pexec.run_invariant util peo ns []
    (fun st => st = Pexec.init [])
    rfl
    (by
      intro st i h
      subst h
      simp [Pexec.step, Pexec.init])
    sched
  unfold Pexec
  simp only [hinv]
  rfl

/-- C1: three pods, the execution in the first fails; when the goroutine of the
first pod runs to its end before the others start, the next goroutine finds
the shared `err` set and panics: the other two pods are never executed, no
summary is printed, and the process dies with the panic status. -/
theorem Pexec_failure_aborts_siblings :
    (RunE demoEnv (demoUtil [0]) NewPExecOptions ["deployment", "nginx", "ls"]
      (Pexec.sequential [0, 1, 2])).outcome = .panic "command terminated with exit code 1" ∧
    (RunE demoEnv (demoUtil [0]) NewPExecOptions ["deployment", "nginx", "ls"]
      (Pexec.sequential [0, 1, 2])).execCalls.map (fun call => call.podName) = ["nginx-a"] ∧
    (RunE demoEnv (demoUtil [0]) NewPExecOptions ["deployment", "nginx", "ls"]
      (Pexec.sequential [0, 1, 2])).summary = none ∧
    main.exitCode (RunE demoEnv (demoUtil [0]) NewPExecOptions ["deployment", "nginx", "ls"]
      (Pexec.sequential [0, 1, 2])).outcome = 2 := by
  decide

/-- C2: three pods. (1) With one failure and the goroutines run one after the
other, no summary is printed. (2) With one failure, when the second goroutine
assigns `err` between the first goroutine's assignment and its test, the
failure is not counted: the summary reports Success 3, Fail 0 and no failed
pod. (3) With two failures whose `failNum++` interleave, one increment is lost:
the summary reports Success 2, Fail 1 and two failed pods. -/
theorem Pexec_summary_wrong :
    (Pexec (demoUtil [0]) demoOptions "default" [⟨"nginx-a"⟩, ⟨"nginx-b"⟩, ⟨"nginx-c"⟩]
      (Pexec.sequential [0, 1, 2])).summary = none ∧
    (Pexec (demoUtil [0]) demoOptions "default" [⟨"nginx-a"⟩, ⟨"nginx-b"⟩, ⟨"nginx-c"⟩]
      [0, 1, 0, 1]).summary = some { success := 3, fail := 0, failedPods := [] } ∧
    (Pexec (demoUtil [0, 1]) demoOptions "default" [⟨"nginx-a"⟩, ⟨"nginx-b"⟩, ⟨"nginx-c"⟩]
      [0, 1, 2, 0, 1, 0, 1, 0, 1, 0, 1, 0, 1]).summary =
        some { success := 2, fail := 1, failedPods := ["nginx-a", "nginx-b"] } := by
  decide

/-! ## Command extraction -/

/-- The three workload branches of the `switch` in `Validate`. -/
theorem Validate_workload (peo : PExecOptions) (tok : String)
    (htok : goIndex peo.args peo.offset = some tok) :
    (tok = "deployment" ∨ tok = "deploy" →
      Validate peo = .ret (Validate.checkLen { peo with workloadType := "Deployment" } 0)) ∧
    (tok = "statefulset" ∨ tok = "ss" →
      Validate peo = .ret (Validate.checkLen { peo with workloadType := "StatefulSet" } 0)) ∧
    (tok = "daemonset" ∨ tok = "ds" →
      Validate peo = .ret (Validate.checkLen { peo with workloadType := "DaemonSet" } 0)) := by
  refine ⟨?_, ?_, ?_⟩ <;> rintro (rfl | rfl) <;> simp [Validate, htok]

theorem commandOffset_slice_workload (peo : PExecOptions) (kind name : String)
    (rest : List String) (hargs : peo.args = kind :: name :: rest) (hoff : peo.offset = 0)
    (hk : peo.workloadType ≠ "Pod") :
    goSliceFrom peo.args (commandOffset peo) = some rest := by
  simp [goSliceFrom, commandOffset, hargs, hoff, hk]
  omega

theorem commandOffset_slice_pod (peo : PExecOptions) (kind : String)
    (rest : List String) (hargs : peo.args = kind :: rest) (hoff : peo.offset = 0)
    (hk : peo.workloadType = "Pod") :
    goSliceFrom peo.args (commandOffset peo) = some rest := by
  simp [goSliceFrom, commandOffset, hargs, hoff, hk]

/-- C6, counterexample: in `deployment nginx echo pexec deploy nginx ls` the
fourth argument is "pexec", so `Complete` moves the offset to 4; `Validate`
succeeds, and every pod is executed with the command `ls`, not with
`echo pexec deploy nginx ls`. -/
theorem Pexec_command_after_pexec_token :
    (Complete NewPExecOptions
      ["deployment", "nginx", "echo", "pexec", "deploy", "nginx", "ls"]).1.offset = 4 ∧
    (RunE demoEnv (demoUtil []) NewPExecOptions
      ["deployment", "nginx", "echo", "pexec", "deploy", "nginx", "ls"] []).outcome =
        .ret none ∧
    (RunE demoEnv (demoUtil []) NewPExecOptions
      ["deployment", "nginx", "echo", "pexec", "deploy", "nginx", "ls"] []).execCalls.map
        (fun call => call.command) = ["ls", "ls", "ls"] ∧
    " ".intercalate ["echo", "pexec", "deploy", "nginx", "ls"] ≠ "ls" := by
  decide

/-- C6, as amended: starting from offset `0`, for arguments
`kind name c1 ... ck` (`k ≥ 1`) with `kind` one of deployment, deploy,
statefulset, ss, daemonset, ds and no argument equal to "pexec", and for
arguments `kind c1 ... ck` with `kind` pod or po, a non-empty labels flag and
no argument equal to "pexec", `Complete` then `Validate` succeed, and every
execution `Pexec` starts, under every schedule, is given exactly the command
`c1 ... ck` joined by single spaces. -/
theorem Pexec_command (peo0 : PExecOptions) (kind name c : String) (cs : List String)
    (hoff : peo0.offset = 0) (hno : "pexec" ∉ name :: c :: cs) :
    ((kind = "deployment" ∨ kind = "deploy" ∨ kind = "statefulset" ∨ kind = "ss" ∨
        kind = "daemonset" ∨ kind = "ds") →
      ∃ peo, Validate (Complete peo0 (kind :: name :: c :: cs)).1 = .ret (peo, none) ∧
        ∀ (util : Util) (ns : String) (pods : List Pod) (sched : List Nat),
          ∀ call ∈ (Pexec util peo ns pods sched).calls,
            call.command = " ".intercalate (c :: cs)) ∧
    ((kind = "pod" ∨ kind = "po") → peo0.selectLabels ≠ "" →
      ∃ peo, Validate (Complete peo0 (kind :: c :: cs)).1 = .ret (peo, none) ∧
        ∀ (util : Util) (ns : String) (pods : List Pod) (sched : List Nat),
          ∀ call ∈ (Pexec util peo ns pods sched).calls,
            call.command = " ".intercalate (c :: cs)) := by
  have hno1 : "pexec" ∉ c :: cs := fun m => hno (List.mem_cons_of_mem _ m)
  constructor
  · intro hkind
    have hk : kind ≠ "pexec" := by
      rcases hkind with h | h | h | h | h | h <;> rw [h] <;> decide
    have hmem : "pexec" ∉ kind :: name :: c :: cs := by
      intro m
      rcases List.mem_cons.1 m with h | h
      · exact hk h.symm
      · exact hno h
    have ho : (Complete peo0 (kind :: name :: c :: cs)).1.offset = 0 := by
      have := Complete.loop_of_not_mem _ 0 peo0.offset hmem
      simp only [Complete]
      rw [this, hoff]
    have htok : goIndex (Complete peo0 (kind :: name :: c :: cs)).1.args
        (Complete peo0 (kind :: name :: c :: cs)).1.offset = some kind := by
      rw [ho]
      rfl
    have hlen : ∀ K : String,
        Validate.checkLen
          { (Complete peo0 (kind :: name :: c :: cs)).1 with workloadType := K } 0 =
          ({ (Complete peo0 (kind :: name :: c :: cs)).1 with workloadType := K }, none) := by
      intro K
      rw [Validate.checkLen, if_neg]
      simp only [ho]
      simp [Complete]
      omega
    have hcalls : ∀ K : String, K ≠ "Pod" →
        ∀ (util : Util) (ns : String) (pods : List Pod) (sched : List Nat),
          ∀ call ∈ (Pexec util
            { (Complete peo0 (kind :: name :: c :: cs)).1 with workloadType := K }
            ns pods sched).calls, call.command = " ".intercalate (c :: cs) := by
      intro K hK util ns pods sched call hc
      exact (Pexec_calls_command util _ ns pods sched (c :: cs)
        (commandOffset_slice_workload
          { (Complete peo0 (kind :: name :: c :: cs)).1 with workloadType := K }
          kind name (c :: cs) rfl ho hK) call hc).1
    obtain ⟨hD, hS, hDs⟩ := Validate_workload _ kind htok
    rcases hkind with h | h | h | h | h | h
    · exact ⟨_, (hD (Or.inl h)).trans (congrArg _ (hlen _)), hcalls _ (by decide)⟩
    · exact ⟨_, (hD (Or.inr h)).trans (congrArg _ (hlen _)), hcalls _ (by decide)⟩
    · exact ⟨_, (hS (Or.inl h)).trans (congrArg _ (hlen _)), hcalls _ (by decide)⟩
    · exact ⟨_, (hS (Or.inr h)).trans (congrArg _ (hlen _)), hcalls _ (by decide)⟩
    · exact ⟨_, (hDs (Or.inl h)).trans (congrArg _ (hlen _)), hcalls _ (by decide)⟩
    · exact ⟨_, (hDs (Or.inr h)).trans (congrArg _ (hlen _)), hcalls _ (by decide)⟩
  · intro hkind hsel
    have hk : kind ≠ "pexec" := by
      rcases hkind with h | h <;> rw [h] <;> decide
    have hmem : "pexec" ∉ kind :: c :: cs := by
      intro m
      rcases List.mem_cons.1 m with h | h
      · exact hk h.symm
      · exact hno1 h
    have ho : (Complete peo0 (kind :: c :: cs)).1.offset = 0 := by
      have := Complete.loop_of_not_mem _ 0 peo0.offset hmem
      simp only [Complete]
      rw [this, hoff]
    have htok : goIndex (Complete peo0 (kind :: c :: cs)).1.args
        (Complete peo0 (kind :: c :: cs)).1.offset = some kind := by
      rw [ho]
      rfl
    have hV := Validate_pod _ kind htok hkind
    have hsel1 : (Complete peo0 (kind :: c :: cs)).1.selectLabels ≠ "" := hsel
    rw [if_neg hsel1] at hV
    have hlen : Validate.checkLen
          { (Complete peo0 (kind :: c :: cs)).1 with workloadType := "Pod" } (0 - 1) =
          ({ (Complete peo0 (kind :: c :: cs)).1 with workloadType := "Pod" }, none) := by
      rw [Validate.checkLen, if_neg]
      simp only [ho]
      simp [Complete]
      omega
    refine ⟨_, hV.trans (congrArg _ hlen), ?_⟩
    intro util ns pods sched call hc
    exact (Pexec_calls_command util _ ns pods sched (c :: cs)
      (commandOffset_slice_pod
        { (Complete peo0 (kind :: c :: cs)).1 with workloadType := "Pod" }
        kind (c :: cs) rfl ho rfl) call hc).1

/-- C6, witness: `deployment nginx cat /etc/nginx/nginx.conf` runs
`cat /etc/nginx/nginx.conf`. -/
theorem Pexec_command_witness :
    ∃ peo, Validate (Complete NewPExecOptions
        ["deployment", "nginx", "cat", "/etc/nginx/nginx.conf"]).1 = .ret (peo, none) ∧
      ∀ (util : Util) (ns : String) (pods : List Pod) (sched : List Nat),
        ∀ call ∈ (Pexec util peo ns pods sched).calls,
          call.command = "cat /etc/nginx/nginx.conf" :=
  (Pexec_command NewPExecOptions "deployment" "nginx" "cat" ["/etc/nginx/nginx.conf"]
    rfl (by decide)).1 (Or.inl rfl)

/-! ## Exit status -/

/-- After a successful `Validate` the command slice is taken without a panic. -/
theorem Validate_slice (peo1 peo : PExecOptions) (h : Validate peo1 = .ret (peo, none)) :
    ∃ tokens, goSliceFrom peo.args (commandOffset peo) = some tokens := by
  obtain ⟨-, -, h0, hk⟩ := Validate_ret_none peo1 peo h
  refine ⟨peo.args.drop (commandOffset peo).toNat, ?_⟩
  unfold goSliceFrom commandOffset
  rcases hk with ⟨hp, hl⟩ | ⟨hp, hl⟩
  · simp only [hp, if_true]
    rw [if_neg (by omega)]
  · simp only [hp, if_false]
    rw [if_neg (by omega)]

/-- The result of `GetPods` does not depend on `util.Execute`. -/
theorem GetPods_congr (util : Util) (execute : Nat → ExecCall → Option Error)
    (peo : PExecOptions) (clientSet : Clientset) (ns : String) :
    GetPods { util with Execute := execute } peo clientSet ns = GetPods util peo clientSet ns := by
  rfl

/-- The set-up of `Run` leaves the arguments, the offset and the workload type
as they are. -/
theorem Run.setup_ret (env : Env) (peo peo1 : PExecOptions) (clientSet : Clientset)
    (h : Run.setup env peo = .ret (peo1, clientSet)) :
    peo1.args = peo.args ∧ peo1.offset = peo.offset ∧
      peo1.workloadType = peo.workloadType := by
  unfold Run.setup at h
  simp only at h
  split at h
  · simp at h
  · split at h
    · simp at h
    · split at h
      · simp at h
      · simp only [Outcome.ret.injEq, Prod.mk.injEq] at h
        obtain ⟨rfl, -⟩ := h
        split <;> exact ⟨rfl, rfl, rfl⟩

/-- When `GetPods` returns pods, `Run` ends as `Pexec` does. -/
theorem Run_of_GetPods_ok (env : Env) (util : Util) (peo peo1 : PExecOptions)
    (clientSet : Clientset) (pods : List Pod) (sched : List Nat)
    (hsetup : Run.setup env peo = .ret (peo1, clientSet))
    (hget : (GetPods util peo1 clientSet peo1.nsFlag).outcome = .ret (pods, none)) :
    (Run env util peo sched).outcome = (Pexec util peo1 peo1.nsFlag pods sched).outcome := by
  unfold Run
  simp only [hsetup, hget]
  split <;> rename_i hp <;> rw [hp]

/-- When `Run` returns `nil`, `GetPods` returned pods. -/
theorem Run_ret_none (env : Env) (util : Util) (peo : PExecOptions) (sched : List Nat)
    (h : (Run env util peo sched).outcome = .ret none) :
    ∃ peo1 clientSet pods, Run.setup env peo = .ret (peo1, clientSet) ∧
      (GetPods util peo1 clientSet peo1.nsFlag).outcome = .ret (pods, none) := by
  unfold Run at h
  split at h
  · simp at h
  · rename_i peo1 clientSet hsetup
    simp only at h
    split at h
    · simp at h
    · simp at h
    · rename_i pods hget
      exact ⟨peo1, clientSet, pods, hsetup, hget⟩

/-- When `Run` returns `nil` and the command slice is in bounds, `Run` also
returns `nil` when every execution succeeds, under every schedule. -/
theorem Run_all_succeed (env : Env) (util : Util) (peo : PExecOptions) (sched sched1 : List Nat)
    (tokens : List String) (hs : goSliceFrom peo.args (commandOffset peo) = some tokens)
    (h : (Run env util peo sched).outcome = .ret none) :
    (Run env { util with Execute := fun _ _ => none } peo sched1).outcome = .ret none := by
  obtain ⟨peo1, clientSet, pods, hsetup, hget⟩ := Run_ret_none env util peo sched h
  obtain ⟨h1, h2, h3⟩ := Run.setup_ret env peo peo1 clientSet hsetup
  have hs1 : goSliceFrom peo1.args (commandOffset peo1) = some tokens := by
    unfold commandOffset at hs ⊢
    rw [h1, h2, h3]
    exact hs
  rw [Run_of_GetPods_ok env _ peo peo1 clientSet pods sched1 hsetup
    (by rw [GetPods_congr]; exact hget)]
  exact (Pexec_all_succeed _ peo1 peo1.nsFlag pods sched1 tokens hs1 (fun _ _ => rfl)).1

/-- When `Validate` succeeds, `RunE` is `Run` on the validated options. -/
theorem RunE_of_Validate_ok (env : Env) (util : Util) (peo0 peo : PExecOptions)
    (args : List String) (sched : List Nat)
    (hv : Validate (Complete peo0 args).1 = .ret (peo, none)) :
    RunE env util peo0 args sched = Run env util peo sched := by
  unfold RunE
  simp only [Complete] at hv ⊢
  simp only [hv]

/-- When `Validate` does not succeed, `RunE` does not return `nil` and starts
no execution. -/
theorem RunE_of_Validate_not_ok (env : Env) (util : Util) (peo0 : PExecOptions)
    (args : List String) (sched : List Nat)
    (hv : ∀ peo, Validate (Complete peo0 args).1 ≠ .ret (peo, none)) :
    (RunE env util peo0 args sched).outcome ≠ .ret none ∧
    (RunE env util peo0 args sched).execCalls = [] ∧
    (RunE env util peo0 args sched).summary = none := by
  unfold RunE
  simp only [Complete] at hv ⊢
  split
  · simp
  · simp
  · rename_i peo h
    exact absurd h (hv peo)

/-- C4: `Pexec` never returns an error, whatever the executions return.
Whenever `Pexec`, entered from `Run`, returns, `Run` returns `nil` and the exit
status is `0`. An error returned by `Run` is the error `GetPods` returned, and
an error returned by the command was raised before any execution started. When
the command returns `nil`, it also returns `nil`, with the same exit status,
when every execution succeeds. -/
theorem Pexec_failures_keep_exit_code (env : Env) (util : Util) (sched : List Nat) :
    (∀ (peo : PExecOptions) (ns : String) (pods : List Pod) (err : Error),
      (Pexec util peo ns pods sched).outcome ≠ .ret (some err)) ∧
    (∀ (peo peo1 : PExecOptions) (clientSet : Clientset) (pods : List Pod) (r : Option Error),
      Run.setup env peo = .ret (peo1, clientSet) →
      (GetPods util peo1 clientSet peo1.nsFlag).outcome = .ret (pods, none) →
      (Pexec util peo1 peo1.nsFlag pods sched).outcome = .ret r →
      r = none ∧ (Run env util peo sched).outcome = .ret none ∧
      main.exitCode (Run env util peo sched).outcome = 0) ∧
    (∀ (peo : PExecOptions) (err : Error),
      (Run env util peo sched).outcome = .ret (some err) →
      (Run env util peo sched).execCalls = [] ∧ (Run env util peo sched).summary = none ∧
      ∃ peo1 clientSet pods, Run.setup env peo = .ret (peo1, clientSet) ∧
        (GetPods util peo1 clientSet peo1.nsFlag).outcome = .ret (pods, some err)) ∧
    (∀ (peo0 : PExecOptions) (args : List String) (err : Error),
      (RunE env util peo0 args sched).outcome = .ret (some err) →
      (RunE env util peo0 args sched).execCalls = [] ∧
      (RunE env util peo0 args sched).summary = none) ∧
    (∀ (peo0 : PExecOptions) (args : List String) (sched1 : List Nat),
      (RunE env util peo0 args sched).outcome = .ret none →
      (RunE env { util with Execute := fun _ _ => none } peo0 args sched1).outcome = .ret none ∧
      main.exitCode (RunE env util peo0 args sched).outcome =
        main.exitCode
          (RunE env { util with Execute := fun _ _ => none } peo0 args sched1).outcome) := by
  have hP : ∀ (peo : PExecOptions) (ns : String) (pods : List Pod) (err : Error),
      (Pexec util peo ns pods sched).outcome ≠ .ret (some err) := by
    intro peo ns pods err h
    rcases Pexec_outcome util peo ns pods sched with hp | ⟨msg, hp⟩ <;> rw [hp] at h <;> simp at h
  have hR : ∀ (peo : PExecOptions) (err : Error),
      (Run env util peo sched).outcome = .ret (some err) →
      (Run env util peo sched).execCalls = [] ∧ (Run env util peo sched).summary = none ∧
      ∃ peo1 clientSet pods, Run.setup env peo = .ret (peo1, clientSet) ∧
        (GetPods util peo1 clientSet peo1.nsFlag).outcome = .ret (pods, some err) := by
    intro peo err h
    obtain ⟨peo1, clientSet, pods, hsetup, hget⟩ := Run_error_from_GetPods env util peo sched err h
    obtain ⟨-, h2, h3, -⟩ :=
      Run_of_GetPods_error env util peo peo1 clientSet pods err sched hsetup hget
    exact ⟨h2, h3, peo1, clientSet, pods, hsetup, hget⟩
  refine ⟨hP, ?_, hR, ?_, ?_⟩
  · intro peo peo1 clientSet pods r hsetup hget hret
    have hr : r = none := by
      cases r with
      | none => rfl
      | some err => exact absurd hret (hP _ _ _ _)
    subst hr
    have hrun : (Run env util peo sched).outcome = .ret none := by
      unfold Run
      simp only [hsetup, hget, hret]
    exact ⟨rfl, hrun, by rw [hrun]; rfl⟩
  · intro peo0 args err h
    by_cases hv : ∃ peo, Validate (Complete peo0 args).1 = .ret (peo, none)
    · obtain ⟨peo, hv⟩ := hv
      rw [RunE_of_Validate_ok env util peo0 peo args sched hv] at h ⊢
      exact ⟨(hR _ _ h).1, (hR _ _ h).2.1⟩
    · have := RunE_of_Validate_not_ok env util peo0 args sched (fun peo hp => hv ⟨peo, hp⟩)
      exact ⟨this.2.1, this.2.2⟩
  · intro peo0 args sched1 h
    have h1 : (RunE env { util with Execute := fun _ _ => none } peo0 args sched1).outcome =
        .ret none := by
      by_cases hv : ∃ peo, Validate (Complete peo0 args).1 = .ret (peo, none)
      · obtain ⟨peo, hv⟩ := hv
        rw [RunE_of_Validate_ok env util peo0 peo args sched hv] at h
        rw [RunE_of_Validate_ok env _ peo0 peo args sched1 hv]
        obtain ⟨tokens, hs⟩ := Validate_slice _ _ hv
        exact Run_all_succeed env util peo sched sched1 tokens hs h
      · exact absurd h
          (RunE_of_Validate_not_ok env util peo0 args sched (fun peo hp => hv ⟨peo, hp⟩)).1
    exact ⟨h1, by rw [h, h1]⟩

/-- C4, witness: on the demo cluster the execution in the third pod fails, the
goroutines run one after the other, and `Run` returns `nil` with exit status
`0`. -/
theorem Pexec_failures_keep_exit_code_witness :
    (none : Option Error) = none ∧
    (Run demoEnv (demoUtil [2]) demoOptions (Pexec.sequential [0, 1, 2])).outcome = .ret none ∧
    main.exitCode
      (Run demoEnv (demoUtil [2]) demoOptions (Pexec.sequential [0, 1, 2])).outcome = 0 :=
  (Pexec_failures_keep_exit_code demoEnv (demoUtil [2]) (Pexec.sequential [0, 1, 2])).2.1
    demoOptions
    { demoOptions with restConfig := some "/root/.kube/config", nsFlag := "default" }
    demoClientset [⟨"nginx-a"⟩, ⟨"nginx-b"⟩, ⟨"nginx-c"⟩] none
    rfl (by decide) (by decide)

end KubectlPexec
